import Mathlib

/-!
Verification of the information-extraction layer of the QCO InfoUtils suite
(cpuinfo, meminfo, diskls, osinfo).

The C++ sources are shallowly embedded: a text file is a list of lines, a
line is a list of characters, `istream` extraction is modelled by stream
readers over character lists, unsigned machine arithmetic is modelled by
explicit reduction modulo 2^64, and C++ exceptions (std::stoi, std::stod,
std::string::substr out-of-range) are modelled by Option: a probe that can
propagate an exception returns none in that case.  Floating-point values
(load averages, percentages) are modelled as exact rationals; division by
zero, which produces a non-finite double in C++, is never relied on in any
theorem below.
-/

/-- A line of a text file, or a fragment of one: a list of characters. -/
abbrev Str := List Char

/-- The whitespace characters used by the sources for in-line trimming and
for istream token extraction, namely space and horizontal tab. -/
def isWs (c : Char) : Bool := c = ' ' || c = '\t'

/-- Trailing-whitespace trim over space and tab:
models key.erase(key.find_last_not_of(" \t") + 1) in cpuinfo.cpp. -/
def trimRight (s : Str) : Str := (s.reverse.dropWhile isWs).reverse

/-- Leading-whitespace trim over space and tab:
models value.erase(0, value.find_first_not_of(" \t")) in cpuinfo.cpp. -/
def trimLeft (s : Str) : Str := s.dropWhile isWs

/-- Split at the first occurrence of a separator character; none when the
separator does not occur.  Models std::string::find plus the two substr
calls around the found position. -/
def splitFirst (sep : Char) : Str → Option (Str × Str)
  | [] => none
  | c :: cs =>
    if c = sep then some ([], cs)
    else (splitFirst sep cs).map (fun p => (c :: p.1, p.2))

/-- Numeric value of a run of decimal digits. -/
def digitsToNat (s : Str) : Nat := s.foldl (fun a c => a * 10 + (c.toNat - '0'.toNat)) 0

/-- istream string extraction (is >> str): skip whitespace, then take the
maximal non-whitespace run; fails when nothing but whitespace remains.
Returns the token and the unconsumed rest of the stream. -/
def readTok (s : Str) : Option (Str × Str) :=
  match s.dropWhile isWs with
  | [] => none
  | c :: cs =>
    some ((c :: cs).takeWhile (fun x => !isWs x), (c :: cs).dropWhile (fun x => !isWs x))

/-- istream extraction of a w-bit unsigned integer (is >> n): skip
whitespace, read the maximal digit run; extraction fails (failbit) when
there is no digit or the value is out of range.  A sign character, which
the C++ stream would also accept, never occurs in the kernel pseudo-files
modelled here and is not modelled.  Returns the value and the rest. -/
def readUNum (w : Nat) (s : Str) : Option (Nat × Str) :=
  let s1 := s.dropWhile isWs
  let ds := s1.takeWhile Char.isDigit
  if ds = [] then none
  else if 2 ^ w ≤ digitsToNat ds then none
  else some (digitsToNat ds, s1.drop ds.length)

/-- istream extraction of a w-bit unsigned integer where only the stored
value is observed, following the C++11 rules: a failed extraction stores 0,
an out-of-range extraction stores the maximal value. -/
def readUNumOr0 (w : Nat) (s : Str) : Nat :=
  let s1 := s.dropWhile isWs
  let ds := s1.takeWhile Char.isDigit
  if ds = [] then 0
  else if 2 ^ w ≤ digitsToNat ds then 2 ^ w - 1
  else digitsToNat ds

/-- std::stoi: skip whitespace, optional sign, then a digit run; throws
(none) when no digit follows or the value exceeds the int range. -/
def stoiInt? (s : Str) : Option Int :=
  let s1 := s.dropWhile isWs
  let p : Int × Str :=
    match s1 with
    | '-' :: cs => (-1, cs)
    | '+' :: cs => (1, cs)
    | _ => (1, s1)
  let ds := p.2.takeWhile Char.isDigit
  if ds = [] then none
  else
    let v : Int := p.1 * digitsToNat ds
    if v < -2147483648 ∨ 2147483647 < v then none else some v

/-- std::stod restricted to plain decimal forms (optional sign, digit run,
optional fractional part): the value as an exact rational, none when no
digit is present (std::invalid_argument).  Hexadecimal, exponent and
inf/nan forms of strtod never occur in the processor-info file and are not
modelled. -/
def stodQ? (s : Str) : Option ℚ :=
  let s1 := s.dropWhile isWs
  let p : ℚ × Str :=
    match s1 with
    | '-' :: cs => (-1, cs)
    | '+' :: cs => (1, cs)
    | _ => (1, s1)
  let ds := p.2.takeWhile Char.isDigit
  let s3 := p.2.drop ds.length
  let fs : Str :=
    match s3 with
    | '.' :: cs => cs.takeWhile Char.isDigit
    | _ => []
  if ds = [] ∧ fs = [] then none
  else some (p.1 * ((digitsToNat ds : ℚ) + (digitsToNat fs : ℚ) / (10 : ℚ) ^ fs.length))

/-- Reduction of a signed value into the 64-bit unsigned range: models the
wraparound of C++ unsigned long arithmetic. -/
def wrap64 (n : Int) : Nat := (n % (2 ^ 64 : Int)).toNat

/-- 64-bit unsigned multiplication with wraparound. -/
def mul64 (a b : Nat) : Nat := a * b % 2 ^ 64

/-! ## meminfo: memory-summary probe (MemInfoUtil::getMemoryInfo) -/

/-- The MemoryInfo record of meminfo.cpp; all fields are unsigned long
kibibyte counts. -/
structure MemoryInfo where
  total_kb : Nat
  available_kb : Nat
  free_kb : Nat
  buffers_kb : Nat
  cached_kb : Nat
  swap_total_kb : Nat
  swap_free_kb : Nat
  swap_cached_kb : Nat
  shmem_kb : Nat
  sreclaimable_kb : Nat
  sunreclaim_kb : Nat
deriving DecidableEq

/-- Zero-initialised MemoryInfo, as the field initialisers of the struct. -/
def memInfoInit : MemoryInfo := ⟨0, 0, 0, 0, 0, 0, 0, 0, 0, 0, 0⟩

/-- One line of the memory-info file: iss >> key >> value, then the chain
of key comparisons of MemInfoUtil::getMemoryInfo.  The unit suffix after
the value is never read. -/
def memStep (info : MemoryInfo) (line : Str) : MemoryInfo :=
  match readTok line with
  | none => info
  | some (key, rest) =>
    match readUNum 64 rest with
    | none => info
    | some (value, _) =>
      if key = "MemTotal:".toList then { info with total_kb := value }
      else if key = "MemAvailable:".toList then { info with available_kb := value }
      else if key = "MemFree:".toList then { info with free_kb := value }
      else if key = "Buffers:".toList then { info with buffers_kb := value }
      else if key = "Cached:".toList then { info with cached_kb := value }
      else if key = "SwapTotal:".toList then { info with swap_total_kb := value }
      else if key = "SwapFree:".toList then { info with swap_free_kb := value }
      else if key = "SwapCached:".toList then { info with swap_cached_kb := value }
      else if key = "Shmem:".toList then { info with shmem_kb := value }
      else if key = "SReclaimable:".toList then { info with sreclaimable_kb := value }
      else if key = "SUnreclaim:".toList then { info with sunreclaim_kb := value }
      else info

/-- MemInfoUtil::getMemoryInfo over the lines of the memory-info file. -/
def getMemoryInfo (lines : List Str) : MemoryInfo := lines.foldl memStep memInfoInit

/-- The used-kibibyte count of MemInfoUtil::printGeneralInfo (line 196):
unsigned long subtraction total_kb - available_kb, with wraparound. -/
def usedKb (total available : Nat) : Nat := wrap64 ((total : Int) - (available : Int))

/-- The used-percentage of MemInfoUtil::printGeneralInfo (line 197):
(double)used_kb / total_kb * 100.0, as an exact rational.  When total is 0
the C++ double is non-finite; the rational value 0 produced here is not
relied on by any theorem. -/
def usedPercentage (total available : Nat) : ℚ :=
  (usedKb total available : ℚ) / (total : ℚ) * 100

/-! ## cpuinfo: cpu-identity probe (CpuInfoUtil::getCpuInfo) -/

/-- Whitespace tokenisation of a string, as the while (iss >> flag) loop
tokenising the flags value.  Implemented with a fuel argument equal to the
length of the input so the definition is structural and kernel-computable;
each successful readTok consumes at least one character, so the fuel never
runs out. -/
def tokensFuel : Nat → Str → List Str
  | 0, _ => []
  | fuel + 1, s =>
    match readTok s with
    | none => []
    | some (t, r) => t :: tokensFuel fuel r

/-- Whitespace tokenisation of a string (the while (iss >> flag) loop). -/
def tokens (s : Str) : List Str := tokensFuel (s.length + 1) s

/-- The CpuInfo record of cpuinfo.cpp restricted to the fields the probe
ever assigns; architecture, byte_order, virtualization and core_id are
declared in the struct but never written by CpuInfoUtil::getCpuInfo and
are omitted. -/
structure CpuInfo where
  model_name : Str
  vendor_id : Str
  cpu_family : Str
  model : Str
  stepping : Str
  microcode : Str
  cache_size : Str
  flags : List Str
  cpu_mhz : ℚ
  physical_cores : Int
  logical_cores : Int
  siblings : Int
deriving DecidableEq

/-- Zero-initialised CpuInfo, as the field initialisers of the struct. -/
def cpuInfoInit : CpuInfo := ⟨[], [], [], [], [], [], [], [], 0, 0, 0, 0⟩

/-- Key/value split of one processor-info line: find the first colon (skip
the line when there is none), trim the key on the right and the value on
the left, exactly as cpuinfo.cpp lines 107-115. -/
def lineKV (line : Str) : Option (Str × Str) :=
  match splitFirst ':' line with
  | none => none
  | some (k, v) => some (trimRight k, trimLeft v)

/-- Insertion into the core_count map of getCpuInfo, of which only the key
set is ever observed (via .size()): record the value if it is new. -/
def insertCore (v : Str) (cc : List Str) : List Str := if v ∈ cc then cc else cc ++ [v]

/-- The twelve keys the else-if chain of CpuInfoUtil::getCpuInfo
recognises, plus the fall-through case. -/
inductive CpuKey where
  | modelName | vendorId | cpuFamily | model | stepping | microcode | cacheSize
  | cpuMhz | siblings | coreId | processor | flags | other
deriving DecidableEq

/-- The key comparisons of the else-if chain of getCpuInfo, in source
order.  The twelve key strings are mutually distinct, so at most one
comparison can hold and splitting the chain into the key dispatch below
and the per-key action in cpuStep preserves the semantics of the combined
conditions (key equality conjoined with the field-empty guard): when the
key matches but the guard fails, none of the other comparisons can match
and the C++ chain falls through to doing nothing. -/
def classifyCpuKey (k : Str) : CpuKey :=
  if k = "model name".toList then .modelName
  else if k = "vendor_id".toList then .vendorId
  else if k = "cpu family".toList then .cpuFamily
  else if k = "model".toList then .model
  else if k = "stepping".toList then .stepping
  else if k = "microcode".toList then .microcode
  else if k = "cache size".toList then .cacheSize
  else if k = "cpu MHz".toList then .cpuMhz
  else if k = "siblings".toList then .siblings
  else if k = "core id".toList then .coreId
  else if k = "processor".toList then .processor
  else if k = "flags".toList then .flags
  else .other

/-- One iteration of the getline loop of CpuInfoUtil::getCpuInfo.  The
accumulator carries the record under construction and the keys of the
core_count map.  std::stoi on the siblings value and std::stod on the cpu
MHz value throw on non-numeric input; the throw propagates out of the
probe, modelled by none. -/
def cpuStep (acc : CpuInfo × List Str) (line : Str) : Option (CpuInfo × List Str) :=
  match lineKV line with
  | none => some acc
  | some (key, value) =>
    let info := acc.1
    let cc := acc.2
    match classifyCpuKey key with
    | .modelName =>
      if info.model_name = [] then some ({ info with model_name := value }, cc) else some acc
    | .vendorId =>
      if info.vendor_id = [] then some ({ info with vendor_id := value }, cc) else some acc
    | .cpuFamily =>
      if info.cpu_family = [] then some ({ info with cpu_family := value }, cc) else some acc
    | .model =>
      if info.model = [] then some ({ info with model := value }, cc) else some acc
    | .stepping =>
      if info.stepping = [] then some ({ info with stepping := value }, cc) else some acc
    | .microcode =>
      if info.microcode = [] then some ({ info with microcode := value }, cc) else some acc
    | .cacheSize =>
      if info.cache_size = [] then some ({ info with cache_size := value }, cc) else some acc
    | .cpuMhz =>
      if info.cpu_mhz = 0 then
        match stodQ? value with
        | none => none
        | some q => some ({ info with cpu_mhz := q }, cc)
      else some acc
    | .siblings =>
      match stoiInt? value with
      | none => none
      | some n => some ({ info with siblings := n }, cc)
    | .coreId => some (info, insertCore value cc)
    | .processor => some ({ info with logical_cores := info.logical_cores + 1 }, cc)
    | .flags =>
      if info.flags = [] then some ({ info with flags := tokens value }, cc) else some acc
    | .other => some acc

/-- CpuInfoUtil::getCpuInfo over the lines of the processor-info file:
fold the per-line step, then set physical_cores to the cardinality of the
core_count key set, falling back to logical_cores when no core id key
appeared.  none models an exception escaping the probe. -/
def getCpuInfo (lines : List Str) : Option CpuInfo :=
  match lines.foldlM cpuStep (cpuInfoInit, []) with
  | none => none
  | some (info, cc) =>
    some { info with
            physical_cores := if cc.length = 0 then info.logical_cores else (cc.length : Int) }

/-! ## cpuinfo: cpu-load probe (CpuInfoUtil::getCpuLoad) -/

/-- The CpuLoad record of cpuinfo.cpp: three load averages, the usage
percentage, and the seven unsigned long long jiffy counters. -/
structure CpuLoad where
  load1 : ℚ
  load5 : ℚ
  load15 : ℚ
  cpu_usage : ℚ
  user : Nat
  nice : Nat
  system : Nat
  idle : Nat
  iowait : Nat
  irq : Nat
  softirq : Nat
deriving DecidableEq

/-- istream extraction of a double restricted to the plain decimal forms
as stodQ?, returning the unconsumed rest; none on failure (failbit, value
written as 0). -/
def readQ (s : Str) : Option (ℚ × Str) :=
  let s1 := s.dropWhile isWs
  let p : ℚ × Str :=
    match s1 with
    | '-' :: cs => (-1, cs)
    | '+' :: cs => (1, cs)
    | _ => (1, s1)
  let ds := p.2.takeWhile Char.isDigit
  let s3 := p.2.drop ds.length
  let q : Str × Str :=
    match s3 with
    | '.' :: cs => (cs.takeWhile Char.isDigit, cs.dropWhile Char.isDigit)
    | _ => ([], s3)
  if ds = [] ∧ q.1 = [] then none
  else
    some (p.1 * ((digitsToNat ds : ℚ) + (digitsToNat q.1 : ℚ) / (10 : ℚ) ^ q.1.length), q.2)

/-- Sequential istream extraction of three doubles (loadavg >> load1 >>
load5 >> load15): once one extraction fails, it and all later targets
hold 0 (C++11 writes 0 on failure and the stream stays failed). -/
def read3Q (s : Str) : ℚ × ℚ × ℚ :=
  match readQ s with
  | none => (0, 0, 0)
  | some (a, r1) =>
    match readQ r1 with
    | none => (a, 0, 0)
    | some (b, r2) =>
      match readQ r2 with
      | none => (a, b, 0)
      | some (c, _) => (a, b, c)

/-- Sequential istream extraction of up to seven unsigned long long
counters, with the same stop-at-first-failure semantics. -/
def read7U (s : Str) : List Nat :=
  (List.range 7).foldl
    (fun (acc : List Nat × Option Str) _ =>
      match acc.2 with
      | none => (acc.1 ++ [0], none)
      | some rest =>
        match readUNum 64 rest with
        | none => (acc.1 ++ [0], none)
        | some (v, r) => (acc.1 ++ [v], some r))
    ([], some s)
  |>.1

/-- The cpu-usage formula of CpuInfoUtil::getCpuLoad lines 174-180: sum
the seven counters (unsigned long long, so modulo 2^64), subtract idle and
iowait (again with wraparound), and divide when the total is nonzero. -/
def cpuUsageOf (user nice system idle iowait irq softirq : Nat) : ℚ :=
  let total : Nat := (user + nice + system + idle + iowait + irq + softirq) % 2 ^ 64
  let used : Nat := wrap64 ((total : Int) - (idle : Int) - (iowait : Int))
  if 0 < total then (used : ℚ) / (total : ℚ) * 100 else 0

/-- CpuInfoUtil::getCpuLoad: the first line of the load-average file (if
readable) gives the three load averages; the first line of the cpu-stats
file (if readable) gives a label token and seven counters, from which the
usage percentage is computed. -/
def getCpuLoad (loadavgLine statLine : Option Str) : CpuLoad :=
  let l3 :=
    match loadavgLine with
    | none => ((0 : ℚ), (0 : ℚ), (0 : ℚ))
    | some s => read3Q s
  match statLine with
  | none => ⟨l3.1, l3.2.1, l3.2.2, 0, 0, 0, 0, 0, 0, 0, 0⟩
  | some s =>
    let rest :=
      match readTok s with
      | none => ([] : Str)
      | some (_, r) => r
    let cs := read7U rest
    let u := cs.getD 0 0
    let n := cs.getD 1 0
    let sy := cs.getD 2 0
    let idl := cs.getD 3 0
    let io := cs.getD 4 0
    let iq := cs.getD 5 0
    let sq := cs.getD 6 0
    ⟨l3.1, l3.2.1, l3.2.2, cpuUsageOf u n sy idl io iq sq, u, n, sy, idl, io, iq, sq⟩

/-! ## meminfo: per-process memory probe (MemInfoUtil::getTopProcesses) -/

/-- The ProcessInfo record of meminfo.cpp. -/
structure ProcessInfo where
  pid : Int
  name : Str
  memory_kb : Nat
  cmd : Str
deriving DecidableEq

/-- One entry of the process-subtree directory as getTopProcesses sees it:
its name, whether it is a directory, and the contents of its status file
(as lines) and cmdline file (as the first getline result), none when the
file cannot be opened. -/
structure DirEntry where
  dirname : Str
  isDir : Bool
  status : Option (List Str)
  cmdline : Option Str
deriving DecidableEq

/-- The getline loop over a process status file (meminfo.cpp lines
140-150): a line whose first five characters are Name: sets the name from
position 6 on (std::string::substr throws out_of_range, modelled by none,
when the line is exactly five characters long); a line whose first six
characters are VmRSS: is re-parsed as key and unsigned value, and a
successful parse breaks out of the loop, while a failed parse stores 0 in
memory_kb (C++11) and continues. -/
def statusScan : List Str → Str → Nat → Option (Str × Nat)
  | [], name, mem => some (name, mem)
  | l :: ls, name, mem =>
    if l.take 5 = "Name:".toList then
      if l.length = 5 then none else statusScan ls (l.drop 6) mem
    else if l.take 6 = "VmRSS:".toList then
      match readTok l with
      | none => statusScan ls name mem
      | some (_, rest) =>
        match readUNum 64 rest with
        | none => statusScan ls name 0
        | some (v, _) => some (name, v)
    else statusScan ls name mem

/-- Handling of one directory entry in the loop of getTopProcesses:
non-directories and names that are not entirely decimal digits are passed
over; std::stoi on the name throws (none) when the digits overflow int;
an unopenable status file skips the entry; the cmdline line has its NUL
bytes replaced by spaces and is truncated to 37 characters plus an
ellipsis when longer than 40; the entry is appended only when the name is
non-empty and the resident set is positive. -/
def procEntryStep (acc : List ProcessInfo) (e : DirEntry) : Option (List ProcessInfo) :=
  if !e.isDir then some acc
  else if !(e.dirname.all Char.isDigit) then some acc
  else
    match stoiInt? e.dirname with
    | none => none
    | some pid =>
      match e.status with
      | none => some acc
      | some slines =>
        match statusScan slines [] 0 with
        | none => none
        | some (name, mem) =>
          let cmd : Str :=
            match e.cmdline with
            | none => []
            | some c =>
              let c1 := c.map (fun ch => if ch = Char.ofNat 0 then ' ' else ch)
              if 40 < c1.length then c1.take 37 ++ "...".toList else c1
          if name ≠ [] ∧ 0 < mem then some (acc ++ [⟨pid, name, mem, cmd⟩]) else some acc

/-- The directory loop of getTopProcesses with its surrounding try/catch:
an exception (none from the step) is caught OUTSIDE the loop, so the
entries already collected are kept but the remaining entries are never
examined. -/
def collectProcs : List DirEntry → List ProcessInfo → List ProcessInfo
  | [], acc => acc
  | e :: es, acc =>
    match procEntryStep acc e with
    | none => acc
    | some acc2 => collectProcs es acc2

/-- Insertion into a list kept in non-increasing memory_kb order. -/
def insertByMem (p : ProcessInfo) : List ProcessInfo → List ProcessInfo
  | [] => [p]
  | q :: qs => if q.memory_kb < p.memory_kb then p :: q :: qs else q :: insertByMem p qs

/-- The std::sort call of getTopProcesses with comparator
a.memory_kb > b.memory_kb, as an insertion sort (the comparator admits
several sorted orders among equal keys; any one of them is a faithful
model of the unstable std::sort). -/
def sortByMemDesc (l : List ProcessInfo) : List ProcessInfo := l.foldr insertByMem []

/-- MemInfoUtil::getTopProcesses: collect, sort by resident set
descending, and truncate to the limit when longer. -/
def getTopProcesses (entries : List DirEntry) (limit : Nat) : List ProcessInfo :=
  let ps := sortByMemDesc (collectProcs entries [])
  if limit < ps.length then ps.take limit else ps

/-! ## diskls: block-device inventory (DiskLsUtil::getDiskInfo) -/

/-- One entry of the block-device subtree as getDiskInfo reads it: the
device name and the contents of the per-device files (none when a file
cannot be opened), plus the names of the child directory entries used for
partition discovery. -/
structure BlockEnt where
  name : Str
  size : Option Str
  model : Option Str
  vendor : Option Str
  removable : Option Str
  rotational : Option Str
  schedulerLine : Option Str
  nrRequests : Option Str
  children : List Str
deriving DecidableEq

/-- The DiskInfo record of diskls.cpp; size_human is a rendering of
size_bytes and is omitted. -/
structure DiskInfo where
  device : Str
  model : Str
  vendor : Str
  type : Str
  size_bytes : Nat
  removable : Bool
  rotational : Bool
  scheduler : Str
  queue_depth : Nat
  partitions : List Str
deriving DecidableEq

/-- Whitespace characters of the model/vendor trailing trim
(find_last_not_of(" \t\n\r")). -/
def isWs4 (c : Char) : Bool := c = ' ' || c = '\t' || c = '\n' || c = '\r'

/-- Trailing trim over space, tab, newline and carriage return. -/
def trimRight4 (s : Str) : Str := (s.reverse.dropWhile isWs4).reverse

/-- The scheduler extraction of getDiskInfo lines 184-188: the text
between the first opening and the first closing square bracket; empty
when either bracket is missing.  When the first closing bracket precedes
the opening one the size_t count underflows and substr clamps to the rest
of the line, which is reproduced here. -/
def schedulerOf (line : Str) : Str :=
  match splitFirst '[' line with
  | none => []
  | some (pre, _) =>
    match splitFirst ']' line with
    | none => []
    | some (pre2, _) =>
      let start := pre.length
      let stop := pre2.length
      let base := line.drop (start + 1)
      if (stop : Int) - (start : Int) - 1 < 0 then base else base.take (stop - start - 1)

/-- Construction of one DiskInfo from a block-device entry, following
getDiskInfo top to bottom: sectors from the size file times 512 (unsigned
long long, so modulo 2^64), trimmed model and vendor, removable and
rotational flags compared against 1, the type rule (NVMe by name, then
SSD/HDD by rotational), scheduler, queue depth, and children whose name
extends the device name as partitions. -/
def mkDisk (e : BlockEnt) : DiskInfo :=
  let sectors : Nat :=
    match e.size with
    | none => 0
    | some s => readUNumOr0 64 s
  let rotational : Bool :=
    match e.rotational with
    | none => true
    | some s => readUNumOr0 31 s = 1
  { device := "/dev/".toList ++ e.name
    model := (match e.model with | none => [] | some s => trimRight4 s)
    vendor := (match e.vendor with | none => [] | some s => trimRight4 s)
    type :=
      if "nvme".toList.isPrefixOf e.name then "NVMe".toList
      else if !rotational then "SSD".toList
      else "HDD".toList
    size_bytes := mul64 sectors 512
    removable := (match e.removable with | none => false | some s => readUNumOr0 31 s = 1)
    rotational := rotational
    scheduler := (match e.schedulerLine with | none => [] | some sl => schedulerOf sl)
    queue_depth := (match e.nrRequests with | none => 0 | some s => readUNumOr0 32 s)
    partitions :=
      (e.children.filter (fun p => e.name.isPrefixOf p ∧ p ≠ e.name)).map
        (fun p => "/dev/".toList ++ p) }

/-- The loop-entry filter of getDiskInfo lines 121-123: device names
beginning with loop or ram are passed over. -/
def keepDisk (e : BlockEnt) : Bool :=
  !("loop".toList.isPrefixOf e.name) && !("ram".toList.isPrefixOf e.name)

/-- DiskLsUtil::getDiskInfo over the entries of the block-device
subtree. -/
def getDiskInfo (entries : List BlockEnt) : List DiskInfo :=
  (entries.filter keepDisk).map mkDisk

/-! ## diskls: mount-usage probe (DiskLsUtil::getPartitionInfo) -/

/-- The statvfs result fields getPartitionInfo reads. -/
structure StatVfs where
  f_blocks : Nat
  f_bfree : Nat
  f_bavail : Nat
  f_frsize : Nat
deriving DecidableEq

/-- The PartitionInfo record of diskls.cpp. -/
structure PartitionInfo where
  device : Str
  mountpoint : Str
  filesystem : Str
  total_bytes : Nat
  used_bytes : Nat
  available_bytes : Nat
  usage_percent : ℚ
  mount_options : Str
deriving DecidableEq

/-- The usage-percent computation of getPartitionInfo lines 249-251:
used over total times 100 when total is positive, otherwise the
zero-initialised field. -/
def usagePercentOf (total used : Nat) : ℚ :=
  if 0 < total then (used : ℚ) / (total : ℚ) * 100 else 0

/-- Handling of one line of the mounts file (getPartitionInfo lines
225-255): four istream string extractions must succeed; the device must
begin with /dev/ and the filesystem must not be one of the four synthetic
types; statvfs on the mountpoint (modelled as a partial map supplied as
input) fills the byte counts with 64-bit wraparound semantics, or leaves
them zero when the call fails. -/
def processRow (stv : Str → Option StatVfs) (line : Str) : Option PartitionInfo :=
  match readTok line with
  | none => none
  | some (device, r1) =>
    match readTok r1 with
    | none => none
    | some (mountpoint, r2) =>
      match readTok r2 with
      | none => none
      | some (filesystem, r3) =>
        match readTok r3 with
        | none => none
        | some (options, _) =>
          if !("/dev/".toList.isPrefixOf device) then none
          else if filesystem = "proc".toList ∨ filesystem = "sysfs".toList ∨
              filesystem = "devtmpfs".toList ∨ filesystem = "tmpfs".toList then none
          else
            match stv mountpoint with
            | some st =>
              let total := mul64 st.f_blocks st.f_frsize
              let used := mul64 (wrap64 ((st.f_blocks : Int) - (st.f_bfree : Int))) st.f_frsize
              let avail := mul64 st.f_bavail st.f_frsize
              some ⟨device, mountpoint, filesystem, total, used, avail,
                    usagePercentOf total used, options⟩
            | none => some ⟨device, mountpoint, filesystem, 0, 0, 0, 0, options⟩

/-- DiskLsUtil::getPartitionInfo over the lines of the mounts file. -/
def getPartitionInfo (lines : List Str) (stv : Str → Option StatVfs) : List PartitionInfo :=
  lines.filterMap (processRow stv)

/-! ## osinfo: distro-identity probe (OsInfoUtil::getDistroInfo) -/

/-- The DistroInfo record of osinfo.cpp. -/
structure DistroInfo where
  name : Str
  version : Str
  id : Str
  id_like : Str
  version_codename : Str
  version_id : Str
  pretty_name : Str
  home_url : Str
  support_url : Str
  bug_report_url : Str
deriving DecidableEq

/-- Empty-initialised DistroInfo. -/
def distroInit : DistroInfo := ⟨[], [], [], [], [], [], [], [], [], []⟩

/-- The quote-stripping step of getDistroInfo lines 179-181, made total by
returning the character accesses as Options: value.front() and
value.back() are read unconditionally, which on an empty value is an
out-of-bounds access (none); otherwise matching double quotes are
stripped via substr(1, length - 2). -/
def unquoteStep (value : Str) : Option Str :=
  match value.head?, value.getLast? with
  | some f, some b =>
    some (if f = '"' ∧ b = '"' then (value.drop 1).take (value.length - 2) else value)
  | _, _ => none

/-- One line of the os-release file: split at the first equals sign (skip
the line when absent), strip quotes, then the chain of key comparisons. -/
def distroStep (info : DistroInfo) (line : Str) : Option DistroInfo :=
  match splitFirst '=' line with
  | none => some info
  | some (key, rawValue) =>
    match unquoteStep rawValue with
    | none => none
    | some value =>
      some (if key = "NAME".toList then { info with name := value }
        else if key = "VERSION".toList then { info with version := value }
        else if key = "ID".toList then { info with id := value }
        else if key = "ID_LIKE".toList then { info with id_like := value }
        else if key = "VERSION_CODENAME".toList then { info with version_codename := value }
        else if key = "VERSION_ID".toList then { info with version_id := value }
        else if key = "PRETTY_NAME".toList then { info with pretty_name := value }
        else if key = "HOME_URL".toList then { info with home_url := value }
        else if key = "SUPPORT_URL".toList then { info with support_url := value }
        else if key = "BUG_REPORT_URL".toList then { info with bug_report_url := value }
        else info)

/-- OsInfoUtil::getDistroInfo over the lines of the os-release file, in
the total embedding: none when the unchecked character access of the
quote-stripping step goes out of bounds. -/
def getDistroInfo (lines : List Str) : Option DistroInfo :=
  lines.foldlM distroStep distroInit

/-! ## Argument parsing (parseArgs of all four tools)

The four parseArgs methods are textually parallel; they differ only in
the tool name and the selector flags.  The observable behaviour relevant
here is the terminal outcome: help and version exit 0, an unrecognised
argument writes two lines to standard error and exits 1, and otherwise
parsing finishes and the tool runs.  The selector booleans they set are
consumed by the renderer, which is out of scope; the only state that
feeds back into parsing itself is use_colors, which --no-color clears
and which colours the error line. -/

/-- The ANSI reset sequence of the Colors namespace. -/
def ansiReset : Str := "\x1b[0m".toList

/-- The ANSI red sequence of the Colors namespace. -/
def ansiRed : Str := "\x1b[31m".toList

/-- The colorize helper shared by the four tools. -/
def colorize (useColors : Bool) (text color : Str) : Str :=
  if useColors then color ++ text ++ ansiReset else text

/-- Terminal outcome of parseArgs. -/
inductive ArgOutcome where
  | helpExit : ArgOutcome
  | versionExit : ArgOutcome
  | finished : ArgOutcome
  | invalidExit : List Str → ArgOutcome
deriving DecidableEq

/-- The process exit code each outcome leads to (help and version call
exit(0), an invalid option calls exit(1), and a finished parse lets run()
complete and main return 0). -/
def exitCodeOf : ArgOutcome → Nat
  | .invalidExit _ => 1
  | _ => 0

/-- The first diagnostic line of the unknown-flag branch. -/
def invalidLine (tool : Str) (arg : Str) (useColors : Bool) : Str :=
  colorize useColors (tool ++ ": invalid option -- '".toList ++ arg ++ "'".toList) ansiRed

/-- The second diagnostic line of the unknown-flag branch. -/
def tryHelpLine (tool : Str) : Str :=
  "Try '".toList ++ tool ++ " --help' for more information.".toList

/-- The argument loop shared by the four parseArgs methods: help and
version terminate with exit 0, a selector flag or --no-color continues
(--no-color clearing use_colors), and anything else writes the two
diagnostic lines to standard error and exits 1. -/
def parseArgsLoop (tool : Str) (selectors : List Str) (useColors : Bool) :
    List Str → ArgOutcome
  | [] => .finished
  | a :: rest =>
    if a = "--help".toList ∨ a = "-h".toList then .helpExit
    else if a = "--version".toList ∨ a = "-V".toList then .versionExit
    else if a ∈ selectors then parseArgsLoop tool selectors useColors rest
    else if a = "--no-color".toList then parseArgsLoop tool selectors false rest
    else .invalidExit [invalidLine tool a useColors, tryHelpLine tool]

/-- The selector flags of CpuInfoUtil::parseArgs. -/
def cpuinfoSelectors : List Str :=
  ["--detailed", "-d", "--frequencies", "-f", "--load", "-l",
   "--topology", "-t", "--all", "-a"].map String.toList

/-- The selector flags of MemInfoUtil::parseArgs. -/
def meminfoSelectors : List Str :=
  ["--processes", "-p", "--detailed", "-d", "--swap", "-s", "--all", "-a"].map String.toList

/-- The selector flags of DiskLsUtil::parseArgs. -/
def disklsSelectors : List Str :=
  ["--detailed", "-d", "--usage", "-u", "--mounts", "-m",
   "--types", "-t", "--all", "-a"].map String.toList

/-- The selector flags of OsInfoUtil::parseArgs. -/
def osinfoSelectors : List Str :=
  ["--detailed", "-d", "--distro", "-r", "--users", "-u",
   "--environment", "-e", "--all", "-a"].map String.toList

/-- The four tools with their selector sets. -/
def toolConfigs : List (Str × List Str) :=
  [("cpuinfo".toList, cpuinfoSelectors), ("meminfo".toList, meminfoSelectors),
   ("diskls".toList, disklsSelectors), ("osinfo".toList, osinfoSelectors)]

/-- CpuInfoUtil::parseArgs. -/
def cpuinfoParseArgs (useColors : Bool) (args : List Str) : ArgOutcome :=
  parseArgsLoop "cpuinfo".toList cpuinfoSelectors useColors args

/-- The standard-error lines an outcome produces. -/
def stderrOf : ArgOutcome → List Str
  | .invalidExit ls => ls
  | _ => []

/-! ## Specification-side mirror functions used in theorem statements -/

/-- The value of the last siblings key of a processor-info file, parsed
with std::stoi, starting from a default; none when some siblings value
fails to parse. -/
def lastSiblings (d : Int) : List Str → Option Int
  | [] => some d
  | l :: ls =>
    match lineKV l with
    | some (k, v) =>
      if classifyCpuKey k = CpuKey.siblings then
        match stoiInt? v with
        | none => none
        | some n => lastSiblings n ls
      else lastSiblings d ls
    | none => lastSiblings d ls

/-- The number of processor keys of a processor-info file. -/
def procCount : List Str → Int
  | [] => 0
  | l :: ls =>
    (match lineKV l with
      | some (k, _) => if classifyCpuKey k = CpuKey.processor then 1 else 0
      | none => 0) + procCount ls

/-- The distinct core id values of a processor-info file, in order of
first appearance, continued from an accumulator. -/
def coreIdsAcc (cc : List Str) : List Str → List Str
  | [] => cc
  | l :: ls =>
    match lineKV l with
    | some (k, v) =>
      if classifyCpuKey k = CpuKey.coreId then coreIdsAcc (insertCore v cc) ls
      else coreIdsAcc cc ls
    | none => coreIdsAcc cc ls

/-- A directory entry on which the body of the getTopProcesses loop
throws: a digit-named directory whose pid overflows int, or one whose
status file drives substr out of range. -/
def entryThrows (e : DirEntry) : Bool := (procEntryStep [] e).isNone

/-! ## Concrete fixtures -/

/-- A processor-info file whose siblings value is not numeric. -/
def c1File : List Str := ["model name\t: AMD EPYC 7302".toList, "siblings\t: abc".toList]

/-- A processor-info file with two siblings keys carrying different
values. -/
def c5File : List Str := ["siblings\t: 4".toList, "siblings\t: 8".toList]

/-- The cpuinfo base fixture of the specification: two processor lines
and two core id lines both valued 0. -/
def c7File : List Str :=
  ["processor\t: 0".toList, "core id\t\t: 0".toList,
   "processor\t: 1".toList, "core id\t\t: 0".toList]

/-- A process directory entry whose name is entirely decimal digits but
overflows the int pid type, so std::stoi throws std::out_of_range. -/
def overflowEntry : DirEntry :=
  { dirname := "99999999999999999999".toList
    isDir := true
    status := some ["Name:\tzombie".toList, "VmRSS:\t  50 kB".toList]
    cmdline := some "/bin/zombie".toList }

/-- A well-behaved qualifying process directory entry. -/
def initEntry : DirEntry :=
  { dirname := "2".toList
    isDir := true
    status := some ["Name:\tinit".toList, "VmRSS:\t  100 kB".toList]
    cmdline := some "/sbin/init".toList }

/-- A memory-info file reporting MemAvailable greater than MemTotal. -/
def c2MemFile : List Str := ["MemTotal: 1000 kB".toList, "MemAvailable: 2000 kB".toList]

/-- Classification of a processor-info line for the siblings field: some
(some n) when it is a siblings line whose value parses to n, some none
when it is a siblings line on which std::stoi throws, none when it is not
a siblings line. -/
def sibClass (line : Str) : Option (Option Int) :=
  match lineKV line with
  | some (k, v) => if classifyCpuKey k = CpuKey.siblings then some (stoiInt? v) else none
  | none => none

/-- The core id value carried by a processor-info line, when any. -/
def coreClass (line : Str) : Option Str :=
  match lineKV line with
  | some (k, v) => if classifyCpuKey k = CpuKey.coreId then some v else none
  | none => none

/-- Whether a processor-info line is a processor line. -/
def isProcLine (line : Str) : Bool :=
  match lineKV line with
  | some (k, _) => classifyCpuKey k == CpuKey.processor
  | none => false

/-- The recognised keys of the memory-summary probe. -/
def memKeys : List Str :=
  ["MemTotal:", "MemAvailable:", "MemFree:", "Buffers:", "Cached:", "SwapTotal:",
   "SwapFree:", "SwapCached:", "Shmem:", "SReclaimable:", "SUnreclaim:"].map String.toList

/-- The MemoryInfo slot a recognised key populates. -/
def memSlot (info : MemoryInfo) (key : Str) : Nat :=
  if key = "MemTotal:".toList then info.total_kb
  else if key = "MemAvailable:".toList then info.available_kb
  else if key = "MemFree:".toList then info.free_kb
  else if key = "Buffers:".toList then info.buffers_kb
  else if key = "Cached:".toList then info.cached_kb
  else if key = "SwapTotal:".toList then info.swap_total_kb
  else if key = "SwapFree:".toList then info.swap_free_kb
  else if key = "SwapCached:".toList then info.swap_cached_kb
  else if key = "Shmem:".toList then info.shmem_kb
  else if key = "SReclaimable:".toList then info.sreclaimable_kb
  else if key = "SUnreclaim:".toList then info.sunreclaim_kb
  else 0

/-- The sector count of a block-device entry: the parsed value of its size
file, 0 when the file is absent (matching the zero initialisation the
loop of getDiskInfo falls back to). -/
def sectorsOf (e : BlockEnt) : Nat :=
  match e.size with
  | some s => readUNumOr0 64 s
  | none => 0

/-- The rotational flag of a block-device entry as an Option: the parsed
value of its rotational file when present. -/
def rotFlagOf (e : BlockEnt) : Option Nat := e.rotational.map (readUNumOr0 31)

/-- A statvfs stub under which every call fails. -/
def stvNone : Str → Option StatVfs := fun _ => none

/-- A well-formed mounts-file row for a kept device. -/
def mountRow : Str := "/dev/sda1 / ext4 rw 0 0".toList

/-- A block-device entry for a non-rotational SATA disk. -/
def sdaEnt : BlockEnt :=
  { name := "sda".toList
    size := some "2048".toList
    model := some "SAMSUNG 870  ".toList
    vendor := some "ATA     ".toList
    removable := some "0".toList
    rotational := some "0".toList
    schedulerLine := some "none [mq-deadline] kyber".toList
    nrRequests := some "64".toList
    children := ["sda1".toList] }

/-! ## Helper lemmas -/

/-- Behaviour of one getCpuInfo loop iteration with respect to the
siblings field, the logical-core counter and the core_count key set. -/
theorem cpuStep_char {acc res : CpuInfo × List Str} {line : Str}
    (h : cpuStep acc line = some res) :
    (∀ n, sibClass line = some (some n) → res.1.siblings = n) ∧
    (sibClass line = none → res.1.siblings = acc.1.siblings) ∧
    sibClass line ≠ some none ∧
    res.1.logical_cores = acc.1.logical_cores + (if isProcLine line then 1 else 0) ∧
    res.2 = (match coreClass line with | some v => insertCore v acc.2 | none => acc.2) := by
  unfold cpuStep at h
  rcases hkv : lineKV line with _ | ⟨k, v⟩ <;> simp only [hkv] at h
  · injection h with h
    subst h
    simp [sibClass, coreClass, isProcLine, hkv]
  · rcases hck : classifyCpuKey k <;> simp only [hck] at h
    case modelName =>
      split at h <;>
        first
          | exact Option.noConfusion h
          | (injection h with h; subst h; simp_all [sibClass, coreClass, isProcLine])
    case vendorId =>
      split at h <;>
        first
          | exact Option.noConfusion h
          | (injection h with h; subst h; simp_all [sibClass, coreClass, isProcLine])
    case cpuFamily =>
      split at h <;>
        first
          | exact Option.noConfusion h
          | (injection h with h; subst h; simp_all [sibClass, coreClass, isProcLine])
    case model =>
      split at h <;>
        first
          | exact Option.noConfusion h
          | (injection h with h; subst h; simp_all [sibClass, coreClass, isProcLine])
    case stepping =>
      split at h <;>
        first
          | exact Option.noConfusion h
          | (injection h with h; subst h; simp_all [sibClass, coreClass, isProcLine])
    case microcode =>
      split at h <;>
        first
          | exact Option.noConfusion h
          | (injection h with h; subst h; simp_all [sibClass, coreClass, isProcLine])
    case cacheSize =>
      split at h <;>
        first
          | exact Option.noConfusion h
          | (injection h with h; subst h; simp_all [sibClass, coreClass, isProcLine])
    case cpuMhz =>
      split at h
      · split at h <;>
          first
            | exact Option.noConfusion h
            | (injection h with h; subst h; simp_all [sibClass, coreClass, isProcLine])
      · first
          | exact Option.noConfusion h
          | (injection h with h; subst h; simp_all [sibClass, coreClass, isProcLine])
    case siblings =>
      split at h <;>
        first
          | exact Option.noConfusion h
          | (injection h with h; subst h; simp_all [sibClass, coreClass, isProcLine])
    case coreId =>
      first
        | exact Option.noConfusion h
        | (injection h with h; subst h; simp_all [sibClass, coreClass, isProcLine])
    case processor =>
      first
        | exact Option.noConfusion h
        | (injection h with h; subst h; simp_all [sibClass, coreClass, isProcLine])
    case flags =>
      split at h <;>
        first
          | exact Option.noConfusion h
          | (injection h with h; subst h; simp_all [sibClass, coreClass, isProcLine])
    case other =>
      first
        | exact Option.noConfusion h
        | (injection h with h; subst h; simp_all [sibClass, coreClass, isProcLine])

/-- Unfolding of lastSiblings over one line, phrased through sibClass. -/
theorem lastSiblings_cons (d : Int) (l : Str) (ls : List Str) :
    lastSiblings d (l :: ls) =
      (match sibClass l with
        | some (some n) => lastSiblings n ls
        | some none => none
        | none => lastSiblings d ls) := by
  rcases hkv : lineKV l with _ | ⟨k, v⟩
  · simp [lastSiblings, sibClass, hkv]
  · by_cases hc : classifyCpuKey k = CpuKey.siblings
    · simp only [lastSiblings, sibClass, hkv, hc, if_true]
      rcases stoiInt? v with _ | n <;> simp
    · simp [lastSiblings, sibClass, hkv, hc]

/-- Unfolding of procCount over one line. -/
theorem procCount_cons (l : Str) (ls : List Str) :
    procCount (l :: ls) = (if isProcLine l then 1 else 0) + procCount ls := by
  rcases hkv : lineKV l with _ | ⟨k, v⟩
  · simp [procCount, isProcLine, hkv]
  · by_cases hc : classifyCpuKey k = CpuKey.processor <;>
      simp [procCount, isProcLine, hkv, hc]

/-- Unfolding of coreIdsAcc over one line, phrased through coreClass. -/
theorem coreIdsAcc_cons (cc : List Str) (l : Str) (ls : List Str) :
    coreIdsAcc cc (l :: ls) =
      coreIdsAcc (match coreClass l with | some v => insertCore v cc | none => cc) ls := by
  rcases hkv : lineKV l with _ | ⟨k, v⟩
  · simp [coreIdsAcc, coreClass, hkv]
  · by_cases hc : classifyCpuKey k = CpuKey.coreId <;>
      simp [coreIdsAcc, coreClass, hkv, hc]

/-- Invariant of the getCpuInfo fold: the siblings field tracks the last
siblings value, logical_cores counts the processor keys, and the
core_count key set accumulates the distinct core id values. -/
theorem foldlM_cpuStep_char :
    ∀ (ls : List Str) (acc res : CpuInfo × List Str),
      List.foldlM cpuStep acc ls = some res →
      lastSiblings acc.1.siblings ls = some res.1.siblings ∧
      res.1.logical_cores = acc.1.logical_cores + procCount ls ∧
      res.2 = coreIdsAcc acc.2 ls := by
  intro ls
  induction ls with
  | nil =>
    intro acc res h
    simp only [List.foldlM_nil] at h
    injection h with h
    subst h
    simp [lastSiblings, procCount, coreIdsAcc]
  | cons l ls ih =>
    intro acc res h
    rw [List.foldlM_cons] at h
    rcases hstep : cpuStep acc l with _ | mid <;> rw [hstep] at h
    · exact Option.noConfusion h
    · obtain ⟨hs1, hs2, hs3, hlog, hcc⟩ := cpuStep_char hstep
      obtain ⟨ih1, ih2, ih3⟩ := ih mid res h
      refine ⟨?_, ?_, ?_⟩
      · rw [lastSiblings_cons]
        rcases hsc : sibClass l with _ | ⟨_ | n⟩
        · rw [← hs2 hsc]; exact ih1
        · exact absurd hsc hs3
        · rw [← hs1 n hsc]; exact ih1
      · rw [procCount_cons]
        omega
      · rw [coreIdsAcc_cons]
        rw [← hcc]
        exact ih3

/-- Whether the body of the getTopProcesses loop throws on an entry does
not depend on the accumulated records. -/
theorem procEntryStep_isNone (acc : List ProcessInfo) (e : DirEntry) :
    (procEntryStep acc e).isNone = entryThrows e := by
  obtain ⟨dn, isd, st, cm⟩ := e
  unfold entryThrows procEntryStep
  cases isd
  · simp
  · cases hall : dn.all Char.isDigit <;> simp only [hall]
    · simp
    · rcases hsto : stoiInt? dn with _ | pid <;> simp only [hsto]
      · simp
      · rcases st with _ | slines
        · rfl
        · rcases hscan : statusScan slines [] 0 with _ | ⟨nm, mem⟩ <;> simp only [hscan]
          · try simp
          · by_cases hq : ¬nm = [] ∧ 0 < mem <;> simp [hq]

/-- A throwing entry ends the collection loop: everything after it is
ignored, everything before it is kept. -/
theorem collectProcs_append_throw (bad : DirEntry) (es2 : List DirEntry)
    (h2 : entryThrows bad = true) :
    ∀ (es1 : List DirEntry), (∀ e ∈ es1, entryThrows e = false) →
      ∀ acc, collectProcs (es1 ++ bad :: es2) acc = collectProcs es1 acc := by
  intro es1
  induction es1 with
  | nil =>
    intro _ acc
    simp only [List.nil_append, collectProcs]
    rcases hp : procEntryStep acc bad with _ | a2
    · rfl
    · have := procEntryStep_isNone acc bad
      rw [hp, h2] at this
      exact Bool.noConfusion this
  | cons e es ih =>
    intro h1 acc
    simp only [List.cons_append, collectProcs]
    rcases hp : procEntryStep acc e with _ | a2
    · have := procEntryStep_isNone acc e
      rw [hp, h1 e (List.mem_cons_self e es)] at this
      try exact Bool.noConfusion this
    · exact ih (fun x hx => h1 x (List.mem_cons_of_mem e hx)) a2

/-- The first diagnostic line of the unknown-flag branch contains the text
invalid option, coloured or not. -/
theorem invalidLine_has_invalid_option (tool a : Str) (b : Bool) :
    List.IsInfix "invalid option".toList (invalidLine tool a b) := by
  have hseg : ": invalid option -- '".toList =
      ": ".toList ++ "invalid option".toList ++ " -- '".toList := by decide
  have hmid : List.IsInfix "invalid option".toList
      (tool ++ ": invalid option -- '".toList ++ a ++ "'".toList) := by
    refine ⟨tool ++ ": ".toList, " -- '".toList ++ a ++ "'".toList, ?_⟩
    rw [hseg]
    simp [List.append_assoc]
  unfold invalidLine colorize
  cases b
  · simpa using hmid
  · simp only [if_true]
    exact hmid.trans ⟨ansiRed, ansiReset, rfl⟩

/-- A selector flag or --no-color is consumed without terminating the
argument loop of any of the four tools. -/
theorem parseArgsLoop_skips_known (tool : Str) (sels : List Str)
    (hcfg : (tool, sels) ∈ toolConfigs) (uc : Bool) (x : Str) (rest : List Str)
    (hx : x ∈ sels ∨ x = "--no-color".toList) :
    parseArgsLoop tool sels uc (x :: rest) =
      parseArgsLoop tool sels (if x = "--no-color".toList then false else uc) rest := by
  simp only [toolConfigs, List.mem_cons, List.not_mem_nil, or_false, Prod.mk.injEq] at hcfg
  rcases hcfg with ⟨rfl, rfl⟩ | ⟨rfl, rfl⟩ | ⟨rfl, rfl⟩ | ⟨rfl, rfl⟩ <;>
    rcases hx with hx | rfl <;>
    first
      | (simp [cpuinfoSelectors, meminfoSelectors, disklsSelectors, osinfoSelectors] at hx
         rcases hx with rfl | rfl | rfl | rfl | rfl | rfl | rfl | rfl | rfl | rfl <;>
           simp [parseArgsLoop, cpuinfoSelectors, meminfoSelectors, disklsSelectors,
             osinfoSelectors])
      | (simp [parseArgsLoop, cpuinfoSelectors, meminfoSelectors, disklsSelectors,
          osinfoSelectors])

/-- A nonnegative ratio scaled to a percentage is nonnegative. -/
theorem pct_nonneg (u t : Nat) : 0 ≤ (u : ℚ) / (t : ℚ) * 100 := by positivity

/-- A ratio of u over t with u at most t stays at or below one hundred. -/
theorem pct_le_100 (u t : Nat) (h : u ≤ t) (ht : 0 < t) : (u : ℚ) / (t : ℚ) * 100 ≤ 100 := by
  have ht' : (0 : ℚ) < t := by exact_mod_cast ht
  rw [div_mul_eq_mul_div, div_le_iff₀ ht']
  have hq : (u : ℚ) ≤ t := by exact_mod_cast h
  nlinarith

/-- A ratio of u over t with u above t exceeds one hundred percent. -/
theorem pct_gt_100 (u t : Nat) (h : t < u) (ht : 0 < t) : 100 < (u : ℚ) / (t : ℚ) * 100 := by
  have ht' : (0 : ℚ) < t := by exact_mod_cast ht
  rw [div_mul_eq_mul_div, lt_div_iff₀ ht']
  have hq : (t : ℚ) < u := by exact_mod_cast h
  nlinarith

/-- The unsigned subtraction of printGeneralInfo does not wrap when
available fits under total. -/
theorem usedKb_of_le (t a : Nat) (h : a ≤ t) (h2 : t < 2 ^ 64) : usedKb t a = t - a := by
  unfold usedKb wrap64
  omega

/-- The unsigned subtraction of printGeneralInfo wraps when available
exceeds total. -/
theorem usedKb_of_gt (t a : Nat) (h : t < a) (h2 : a < 2 ^ 64) :
    usedKb t a = 2 ^ 64 - a + t := by
  unfold usedKb wrap64
  omega

/-- The memory used-percentage is within bounds when available fits under
total. -/
theorem usedPercentage_bounds (t a : Nat) (ht : 0 < t) (h : a ≤ t) (h2 : t < 2 ^ 64) :
    0 ≤ usedPercentage t a ∧ usedPercentage t a ≤ 100 := by
  unfold usedPercentage
  rw [usedKb_of_le t a h h2]
  exact ⟨pct_nonneg _ _, pct_le_100 _ _ (Nat.sub_le t a) ht⟩

/-- The memory used-percentage exceeds one hundred when available exceeds
total, through the unsigned wraparound. -/
theorem usedPercentage_overflow (t a : Nat) (ht : 0 < t) (h : t < a) (h2 : a < 2 ^ 64) :
    100 < usedPercentage t a := by
  unfold usedPercentage
  rw [usedKb_of_gt t a h h2]
  exact pct_gt_100 _ _ (by omega) ht

/-- The cpu-usage percentage is within bounds when the seven counters sum
without overflow. -/
theorem cpuUsageOf_bounds (u n s i io q sq : Nat)
    (h : u + n + s + i + io + q + sq < 2 ^ 64) :
    0 ≤ cpuUsageOf u n s i io q sq ∧ cpuUsageOf u n s i io q sq ≤ 100 := by
  unfold cpuUsageOf
  simp only [Nat.mod_eq_of_lt h]
  have hused : wrap64 ((u + n + s + i + io + q + sq : Nat) - (i : Int) - (io : Int)) =
      u + n + s + io + q + sq + i - i - io := by
    unfold wrap64
    push_cast
    omega
  by_cases htot : 0 < u + n + s + i + io + q + sq
  · rw [if_pos htot, hused]
    exact ⟨pct_nonneg _ _, pct_le_100 _ _ (by omega) htot⟩
  · rw [if_neg htot]
    norm_num

/-- The mount usage-percentage is within bounds when free blocks fit under
total blocks and the byte total does not overflow. -/
theorem mountUsage_bounds (b bf fr : Nat) (h : bf ≤ b) (h2 : b * fr < 2 ^ 64) :
    0 ≤ usagePercentOf (mul64 b fr) (mul64 (wrap64 ((b : Int) - (bf : Int))) fr) ∧
    usagePercentOf (mul64 b fr) (mul64 (wrap64 ((b : Int) - (bf : Int))) fr) ≤ 100 := by
  rcases Nat.eq_zero_or_pos fr with rfl | hfr
  · simp [mul64, usagePercentOf]
  · have hb : b < 2 ^ 64 := lt_of_le_of_lt (Nat.le_mul_of_pos_right b hfr) h2
    have hw : wrap64 ((b : Int) - (bf : Int)) = b - bf := by
      unfold wrap64
      omega
    have htotv : mul64 b fr = b * fr := Nat.mod_eq_of_lt h2
    have husedv : mul64 (b - bf) fr = (b - bf) * fr := by
      unfold mul64
      exact Nat.mod_eq_of_lt (lt_of_le_of_lt (Nat.mul_le_mul_right fr (Nat.sub_le b bf)) h2)
    rw [hw, htotv, husedv]
    unfold usagePercentOf
    by_cases htot : 0 < b * fr
    · rw [if_pos htot]
      exact ⟨pct_nonneg _ _, pct_le_100 _ _ (Nat.mul_le_mul_right fr (Nat.sub_le b bf)) htot⟩
    · rw [if_neg htot]
      norm_num

set_option maxRecDepth 4000 in
/-- The size in bytes of a constructed DiskInfo is the 64-bit product of
its sector count and 512. -/
theorem mkDisk_size (e : BlockEnt) : (mkDisk e).size_bytes = mul64 (sectorsOf e) 512 := by
  unfold mkDisk sectorsOf
  rcases hs : e.size with _ | s <;> simp [hs]

/-- The type rule of getDiskInfo agrees with the specification form:
NVMe by name, then SSD exactly when the rotational flag parses to 0, else
HDD; the hypothesis confines the rotational file to the 0/1 values the
kernel writes. -/
theorem mkDisk_type_spec (e : BlockEnt)
    (hrot : rotFlagOf e = none ∨ rotFlagOf e = some 0 ∨ rotFlagOf e = some 1) :
    (mkDisk e).type = (if List.IsPrefix "nvme".toList e.name then "NVMe".toList
      else if rotFlagOf e = some 0 then "SSD".toList else "HDD".toList) := by
  by_cases hn : List.IsPrefix "nvme".toList e.name
  · simp only [mkDisk]
    rw [if_pos (List.isPrefixOf_iff_prefix.mpr hn), if_pos hn]
  · rcases hre : e.rotational with _ | s
    · simp [mkDisk, rotFlagOf, hn, hre, List.isPrefixOf_iff_prefix]
    · have hf : rotFlagOf e = some (readUNumOr0 31 s) := by simp [rotFlagOf, hre]
      rcases hrot with hv | hv | hv
      · rw [hf] at hv
        exact Option.noConfusion hv
      · rw [hf] at hv
        injection hv with hv
        simp [mkDisk, rotFlagOf, hn, hre, hv, List.isPrefixOf_iff_prefix]
      · rw [hf] at hv
        injection hv with hv
        simp [mkDisk, rotFlagOf, hn, hre, hv, List.isPrefixOf_iff_prefix]

/-! ## Claim theorems -/

/-- C1: the claim says a non-convertible value (for example a non-numeric
siblings value) leaves only that field at its default and the cpu-identity
probe completes normally on any text input.  The code instead lets
std::stoi throw: on a file whose siblings value is the text abc, the
embedded probe propagates the exception (none) and produces no record at
all, so the probe does not complete and every already-parsed field is
lost; the real tool prints a diagnostic from main and exits 1. -/
theorem cpuinfo_siblings_parse_throws : getCpuInfo c1File = none := by decide

/-- C2 counterexample: on a memory-info file reporting MemTotal 1000 kB
and MemAvailable 2000 kB, the used-percentage computed by
printGeneralInfo exceeds 100, because the unsigned subtraction
total - available wraps around; the claim asserts every computed
percentage lies in the interval from 0 to 100. -/
theorem mem_percent_overflow_cex :
    100 < usedPercentage (getMemoryInfo c2MemFile).total_kb
      (getMemoryInfo c2MemFile).available_kb := by
  have h1 : (getMemoryInfo c2MemFile).total_kb = 1000 := by decide
  have h2 : (getMemoryInfo c2MemFile).available_kb = 2000 := by decide
  rw [h1, h2]
  have h3 : usedKb 1000 2000 = 18446744073709550616 := by decide
  unfold usedPercentage
  rw [h3]
  norm_num

/-- C2 as amended: every percentage the tools compute lies in the
interval from 0 to 100 whenever the inputs do not trigger unsigned
wraparound (MemTotal positive and at least MemAvailable, the seven jiffy
counters summing below 2 to the 64, free blocks at most total blocks and
the byte total fitting 64 bits); and when MemAvailable exceeds MemTotal
the memory used-percentage exceeds 100. -/
theorem percent_ranges_amended :
    (∀ t a : Nat, 0 < t → a ≤ t → t < 2 ^ 64 →
      0 ≤ usedPercentage t a ∧ usedPercentage t a ≤ 100) ∧
    (∀ u n s i io q sq : Nat, u + n + s + i + io + q + sq < 2 ^ 64 →
      0 ≤ cpuUsageOf u n s i io q sq ∧ cpuUsageOf u n s i io q sq ≤ 100) ∧
    (∀ b bf fr : Nat, bf ≤ b → b * fr < 2 ^ 64 →
      0 ≤ usagePercentOf (mul64 b fr) (mul64 (wrap64 ((b : Int) - (bf : Int))) fr) ∧
      usagePercentOf (mul64 b fr) (mul64 (wrap64 ((b : Int) - (bf : Int))) fr) ≤ 100) ∧
    (∀ t a : Nat, 0 < t → t < a → a < 2 ^ 64 → 100 < usedPercentage t a) :=
  ⟨fun t a ht h h2 => usedPercentage_bounds t a ht h h2,
   fun u n s i io q sq h => cpuUsageOf_bounds u n s i io q sq h,
   fun b bf fr h h2 => mountUsage_bounds b bf fr h h2,
   fun t a ht h h2 => usedPercentage_overflow t a ht h h2⟩

/-- C2 witness: the amended theorem applied at concrete inputs. -/
theorem percent_ranges_witness :
    (0 ≤ usedPercentage 8000 2000 ∧ usedPercentage 8000 2000 ≤ 100) ∧
    (0 ≤ cpuUsageOf 1 2 3 4 5 6 7 ∧ cpuUsageOf 1 2 3 4 5 6 7 ≤ 100) ∧
    (0 ≤ usagePercentOf (mul64 100 512) (mul64 (wrap64 ((100 : Int) - (40 : Int))) 512) ∧
      usagePercentOf (mul64 100 512) (mul64 (wrap64 ((100 : Int) - (40 : Int))) 512) ≤ 100) ∧
    100 < usedPercentage 1000 2000 :=
  ⟨percent_ranges_amended.1 8000 2000 (by decide) (by decide) (by norm_num),
   percent_ranges_amended.2.1 1 2 3 4 5 6 7 (by norm_num),
   percent_ranges_amended.2.2.1 100 40 512 (by decide) (by norm_num),
   percent_ranges_amended.2.2.2 1000 2000 (by decide) (by decide) (by norm_num)⟩

/-- C3 counterexample: a process directory whose name is twenty digits
makes std::stoi throw; the try/catch sits outside the loop, so the
enumeration stops and the perfectly valid process listed after it is
never emitted, while on its own that process is emitted; the claim
asserts only the failing process is skipped. -/
theorem top_processes_abort_cex :
    getTopProcesses [overflowEntry, initEntry] 15 = [] ∧
      getTopProcesses [initEntry] 15 ≠ [] := by decide

/-- C3 as amended: a failure that raises inside the body of the
getTopProcesses loop (a pid overflowing int, or a status line driving
substr out of range) aborts the remaining enumeration: the result is
exactly what the probe returns on the prefix before the throwing entry;
non-raising failures still skip only their own entry. -/
theorem top_processes_abort (es1 es2 : List DirEntry) (bad : DirEntry) (limit : Nat)
    (h1 : ∀ e ∈ es1, entryThrows e = false) (h2 : entryThrows bad = true) :
    getTopProcesses (es1 ++ bad :: es2) limit = getTopProcesses es1 limit := by
  unfold getTopProcesses
  rw [collectProcs_append_throw bad es2 h2 es1 h1]

/-- C3 witness: the amended theorem applied to one good entry followed by
the overflowing entry. -/
theorem top_processes_abort_witness :
    getTopProcesses ([initEntry] ++ overflowEntry :: []) 15 = getTopProcesses [initEntry] 15 :=
  top_processes_abort [initEntry] [] overflowEntry 15 (by decide) (by decide)

/-- C4 counterexample: a memory-info line whose unit is mB rather than kB
still fills the MemTotal slot; the claim asserts the slot is filled only
when the unit is kB. -/
theorem meminfo_unit_ignored_cex :
    (getMemoryInfo ["MemTotal: 8000 mB".toList]).total_kb = 8000 := by decide

set_option maxHeartbeats 1000000 in
/-- C4 as amended: the memory-summary probe fills the slot of a
recognised key whenever the second field of the line parses as an
unsigned integer; the unit text after the value is never examined. -/
theorem meminfo_unit_never_examined (l : Str) (key rest : Str) (v : Nat) (r : Str)
    (hk : key ∈ memKeys) (h1 : readTok l = some (key, rest))
    (h2 : readUNum 64 rest = some (v, r)) :
    memSlot (getMemoryInfo [l]) key = v := by
  have hstep : getMemoryInfo [l] = memStep memInfoInit l := rfl
  rw [hstep]
  unfold memStep
  simp only [h1, h2]
  simp only [memKeys, List.map, List.mem_cons, List.not_mem_nil, or_false] at hk
  rcases hk with rfl | rfl | rfl | rfl | rfl | rfl | rfl | rfl | rfl | rfl | rfl <;>
    simp [memSlot]

/-- C4 witness: the amended theorem applied to a MemTotal line carrying
the unit mB. -/
theorem meminfo_unit_witness :
    memSlot (getMemoryInfo ["MemTotal: 8000 mB".toList]) "MemTotal:".toList = 8000 :=
  meminfo_unit_never_examined "MemTotal: 8000 mB".toList "MemTotal:".toList
    " 8000 mB".toList 8000 " mB".toList (by decide) (by decide) (by decide)

/-- C5 counterexample: on a file whose siblings keys carry 4 and then 8,
the probe reports 8, not the first occurrence 4; the claim asserts the
first occurrence wins. -/
theorem cpu_siblings_first_cex :
    (getCpuInfo c5File).map CpuInfo.siblings = some 8 ∧ (8 : Int) ≠ 4 := by decide

/-- C5 as amended: whenever the cpu-identity probe returns a record, its
siblings field equals the value of the last siblings key of the file (0
when there is none). -/
theorem cpu_siblings_last (ls : List Str) (info : CpuInfo)
    (h : getCpuInfo ls = some info) : lastSiblings 0 ls = some info.siblings := by
  unfold getCpuInfo at h
  rcases hf : List.foldlM cpuStep (cpuInfoInit, []) ls with _ | ⟨i, cc⟩ <;> rw [hf] at h
  · exact Option.noConfusion h
  · injection h with h
    subst h
    have := (foldlM_cpuStep_char ls (cpuInfoInit, []) (i, cc) hf).1
    exact this

/-- C5 witness: the amended theorem applied to the two-siblings file. -/
theorem cpu_siblings_last_witness :
    lastSiblings 0 c5File = some ({ cpuInfoInit with siblings := 8 } : CpuInfo).siblings :=
  cpu_siblings_last c5File { cpuInfoInit with siblings := 8 } (by decide)

/-- C6 counterexample: the unknown flag -x given to cpuinfo produces two
lines on standard error, not exactly one as the claim asserts; the exit
code is 1. -/
theorem invalid_flag_two_lines_cex :
    (stderrOf (cpuinfoParseArgs true ["-x".toList])).length = 2 ∧
      exitCodeOf (cpuinfoParseArgs true ["-x".toList]) = 1 := by decide

/-- C6 as amended: for each of the four tools, an argument list of
recognised selector flags followed by one unrecognised flag makes
parseArgs write exactly two lines to standard error, the first of which
contains the text invalid option, and exit with code 1. -/
theorem unknown_flag_behaviour (tool : Str) (sels : List Str)
    (hcfg : (tool, sels) ∈ toolConfigs) (uc : Bool) (pre : List Str) (a : Str)
    (post : List Str)
    (hpre : ∀ x ∈ pre, x ∈ sels ∨ x = "--no-color".toList)
    (ha1 : a ∉ sels) (ha2 : a ≠ "--no-color".toList)
    (ha3 : a ≠ "--help".toList) (ha4 : a ≠ "-h".toList)
    (ha5 : a ≠ "--version".toList) (ha6 : a ≠ "-V".toList) :
    ∃ b : Bool,
      parseArgsLoop tool sels uc (pre ++ a :: post) =
        ArgOutcome.invalidExit [invalidLine tool a b, tryHelpLine tool] ∧
      List.IsInfix "invalid option".toList (invalidLine tool a b) ∧
      (stderrOf (parseArgsLoop tool sels uc (pre ++ a :: post))).length = 2 ∧
      exitCodeOf (parseArgsLoop tool sels uc (pre ++ a :: post)) = 1 := by
  induction pre generalizing uc with
  | nil =>
    have hstep : parseArgsLoop tool sels uc (a :: post) =
        ArgOutcome.invalidExit [invalidLine tool a uc, tryHelpLine tool] := by
      unfold parseArgsLoop
      rw [if_neg (fun hc => hc.elim ha3 ha4), if_neg (fun hc => hc.elim ha5 ha6),
        if_neg ha1, if_neg ha2]
    rw [List.nil_append, hstep]
    exact ⟨uc, rfl, invalidLine_has_invalid_option tool a uc, rfl, rfl⟩
  | cons x pre ih =>
    rw [List.cons_append,
      parseArgsLoop_skips_known tool sels hcfg uc x _ (hpre x (List.mem_cons_self x pre))]
    exact ih _ (fun y hy => hpre y (List.mem_cons_of_mem x hy))

/-- C6 witness: the amended theorem applied to cpuinfo with the argument
list -d followed by the unknown flag -x. -/
theorem unknown_flag_witness :
    ∃ b : Bool,
      parseArgsLoop "cpuinfo".toList cpuinfoSelectors true
          (["-d".toList] ++ "-x".toList :: []) =
        ArgOutcome.invalidExit [invalidLine "cpuinfo".toList "-x".toList b,
          tryHelpLine "cpuinfo".toList] ∧
      List.IsInfix "invalid option".toList (invalidLine "cpuinfo".toList "-x".toList b) ∧
      (stderrOf (parseArgsLoop "cpuinfo".toList cpuinfoSelectors true
        (["-d".toList] ++ "-x".toList :: []))).length = 2 ∧
      exitCodeOf (parseArgsLoop "cpuinfo".toList cpuinfoSelectors true
        (["-d".toList] ++ "-x".toList :: [])) = 1 :=
  unknown_flag_behaviour "cpuinfo".toList cpuinfoSelectors (by decide) true
    ["-d".toList] "-x".toList [] (by decide) (by decide) (by decide) (by decide)
    (by decide) (by decide) (by decide)

/-- C7: whenever the cpu-identity probe returns a record, its logical-cpu
count equals the number of processor keys of the file, and its
physical-core count equals the number of distinct core id values, falling
back to the logical count when no core id key appears. -/
theorem cpu_core_counts (ls : List Str) (info : CpuInfo)
    (h : getCpuInfo ls = some info) :
    info.logical_cores = procCount ls ∧
    info.physical_cores =
      (if coreIdsAcc [] ls = [] then procCount ls
       else ((coreIdsAcc [] ls).length : Int)) := by
  unfold getCpuInfo at h
  rcases hf : List.foldlM cpuStep (cpuInfoInit, []) ls with _ | ⟨i, cc⟩ <;> rw [hf] at h
  · exact Option.noConfusion h
  · injection h with h
    subst h
    obtain ⟨-, hlog, hcc⟩ := foldlM_cpuStep_char ls (cpuInfoInit, []) (i, cc) hf
    simp only at hlog hcc
    constructor
    · simpa [cpuInfoInit] using hlog
    · subst hcc
      rcases hemp : coreIdsAcc [] ls with _ | ⟨c, cs⟩ <;>
        simp [hemp, List.length_eq_zero, cpuInfoInit]
      · simpa [cpuInfoInit] using hlog

/-- C7 witness: on the fixture with two processor lines and two core id
lines valued 0 and 0, the record reports two logical cores and one
physical core. -/
theorem cpu_core_counts_witness :
    ({ cpuInfoInit with logical_cores := 2, physical_cores := 1 } : CpuInfo).logical_cores =
        procCount c7File ∧
      ({ cpuInfoInit with logical_cores := 2, physical_cores := 1 } : CpuInfo).physical_cores =
        (if coreIdsAcc [] c7File = [] then procCount c7File
         else ((coreIdsAcc [] c7File).length : Int)) :=
  cpu_core_counts c7File { cpuInfoInit with logical_cores := 2, physical_cores := 1 } (by decide)

/-- C8: every device the block-device inventory emits comes from an entry
whose name begins with neither loop nor ram, its size in bytes is its
sector count times 512 (whenever that product fits 64 bits), and its type
is NVMe exactly when the name begins with nvme, otherwise SSD exactly
when the rotational flag parses to 0, otherwise HDD; the hypothesis
confines each rotational file to the 0/1 values the kernel writes. -/
theorem diskls_inventory (entries : List BlockEnt)
    (hrot : ∀ e ∈ entries,
      rotFlagOf e = none ∨ rotFlagOf e = some 0 ∨ rotFlagOf e = some 1) :
    ∀ d ∈ getDiskInfo entries, ∃ e ∈ entries,
      keepDisk e = true ∧ d = mkDisk e ∧
      ¬ List.IsPrefix "loop".toList e.name ∧ ¬ List.IsPrefix "ram".toList e.name ∧
      (sectorsOf e * 512 < 2 ^ 64 → d.size_bytes = sectorsOf e * 512) ∧
      d.type = (if List.IsPrefix "nvme".toList e.name then "NVMe".toList
        else if rotFlagOf e = some 0 then "SSD".toList else "HDD".toList) := by
  intro d hd
  unfold getDiskInfo at hd
  obtain ⟨e, he, rfl⟩ := List.mem_map.mp hd
  obtain ⟨hemem, hkeep⟩ := List.mem_filter.mp he
  have hkeep1 := hkeep
  unfold keepDisk at hkeep1
  simp only [Bool.and_eq_true, Bool.not_eq_true'] at hkeep1
  have hkeep2 : ¬ List.IsPrefix "loop".toList e.name ∧ ¬ List.IsPrefix "ram".toList e.name := by
    refine ⟨fun hc => ?_, fun hc => ?_⟩
    · rw [List.isPrefixOf_iff_prefix.mpr hc] at hkeep1
      exact absurd hkeep1.1 (by decide)
    · rw [List.isPrefixOf_iff_prefix.mpr hc] at hkeep1
      exact absurd hkeep1.2 (by decide)
  refine ⟨e, hemem, hkeep, rfl, hkeep2.1, hkeep2.2, ?_, mkDisk_type_spec e (hrot e hemem)⟩
  intro hlt
  rw [mkDisk_size]
  unfold mul64
  exact Nat.mod_eq_of_lt hlt

/-- C8 witness: the inventory theorem applied to a single SATA solid
state entry named sda with 2048 sectors and rotational flag 0. -/
theorem diskls_inventory_witness :
    ∃ e ∈ [sdaEnt],
      keepDisk e = true ∧ mkDisk sdaEnt = mkDisk e ∧
      ¬ List.IsPrefix "loop".toList e.name ∧ ¬ List.IsPrefix "ram".toList e.name ∧
      (sectorsOf e * 512 < 2 ^ 64 → (mkDisk sdaEnt).size_bytes = sectorsOf e * 512) ∧
      (mkDisk sdaEnt).type = (if List.IsPrefix "nvme".toList e.name then "NVMe".toList
        else if rotFlagOf e = some 0 then "SSD".toList else "HDD".toList) :=
  diskls_inventory [sdaEnt] (by decide) (mkDisk sdaEnt) (by decide)

/-- C9: a row of the mounts file with at least four fields produces a
mount record if and only if its device path begins with /dev/ and its
filesystem type is none of proc, sysfs, devtmpfs and tmpfs. -/
theorem mounts_filter_iff (stv : Str → Option StatVfs) (l : Str)
    (dev mp fsy opts r1 r2 r3 r4 : Str)
    (h1 : readTok l = some (dev, r1)) (h2 : readTok r1 = some (mp, r2))
    (h3 : readTok r2 = some (fsy, r3)) (h4 : readTok r3 = some (opts, r4)) :
    getPartitionInfo [l] stv ≠ [] ↔
      (List.IsPrefix "/dev/".toList dev ∧
        fsy ∉ ["proc".toList, "sysfs".toList, "devtmpfs".toList, "tmpfs".toList]) := by
  have hrow : ∀ p, processRow stv l = p →
      (p ≠ none ↔ (List.IsPrefix "/dev/".toList dev ∧
        fsy ∉ ["proc".toList, "sysfs".toList, "devtmpfs".toList, "tmpfs".toList])) := by
    intro p hp
    unfold processRow at hp
    simp only [h1, h2, h3, h4] at hp
    by_cases hdev : "/dev/".toList.isPrefixOf dev = true
    · rw [if_neg (by rw [hdev]; simp)] at hp
      by_cases hfs : fsy = "proc".toList ∨ fsy = "sysfs".toList ∨
          fsy = "devtmpfs".toList ∨ fsy = "tmpfs".toList
      · rw [if_pos hfs] at hp
        subst hp
        simp only [ne_eq, not_true_eq_false, false_iff, not_and, List.mem_cons,
          List.not_mem_nil, or_false, not_not, ← List.isPrefixOf_iff_prefix]
        tauto
      · rw [if_neg hfs] at hp
        rcases hstv : stv mp with _ | st <;> rw [hstv] at hp <;> subst hp <;>
          (simp only [ne_eq, reduceCtorEq, not_false_eq_true, true_iff, List.mem_cons,
            List.not_mem_nil, or_false, ← List.isPrefixOf_iff_prefix]
           tauto)
    · rw [Bool.not_eq_true] at hdev
      rw [if_pos (by rw [hdev]; simp)] at hp
      subst hp
      simp only [ne_eq, not_true_eq_false, false_iff, not_and, List.mem_cons,
        List.not_mem_nil, or_false, not_not, ← List.isPrefixOf_iff_prefix]
      intro hc
      rw [hdev] at hc
      exact absurd hc (by decide)
  unfold getPartitionInfo
  rcases hp : processRow stv l with _ | rec
  · simpa [List.filterMap, hp] using (hrow none hp)
  · simpa [List.filterMap, hp] using (hrow (some rec) hp)

/-- C9 witness: the filter theorem applied to the row
/dev/sda1 / ext4 rw 0 0 under a failing statvfs. -/
theorem mounts_filter_witness :
    getPartitionInfo [mountRow] stvNone ≠ [] ↔
      (List.IsPrefix "/dev/".toList "/dev/sda1".toList ∧
        "ext4".toList ∉ ["proc".toList, "sysfs".toList, "devtmpfs".toList, "tmpfs".toList]) :=
  mounts_filter_iff stvNone mountRow "/dev/sda1".toList "/".toList "ext4".toList
    "rw".toList " / ext4 rw 0 0".toList " ext4 rw 0 0".toList " rw 0 0".toList
    " 0 0".toList (by decide) (by decide) (by decide) (by decide)

/-- C10: the quote-stripping step of the distro-identity parser reads the
first and last character of the value unconditionally; on an os-release
file containing the line VERSION_CODENAME= with an empty value, the
checked-access embedding reaches the error branch, so the unquoting step
is not total on empty values. -/
theorem osinfo_unquote_error_reachable :
    getDistroInfo ["NAME=Ubuntu".toList, "VERSION_CODENAME=".toList] = none := by decide
